import Mathlib

/-!
# Verification of the IAM access-key rotation engine

Shallow embedding of the key-rotation logic of
`src/infrastructure/key-rotator/iam-key-rotator.ts`, the credential-pusher
plumbing of `src/unnamed/part_000` (`credential-pusher.ts`), and the Travis CI
pusher of `src/infrastructure/key-rotator/credential-pusher-travis.ts`.

The AWS IAM store is modelled as a list of access-key metadata records; the
engine's calls to the store (create / update-status / delete), the fixed
grace-period sleep, the distribution callback and the caught-and-logged errors
are recorded as an explicit event trace.
-/

namespace KeyRotator

/-- `AWS.IAM.AccessKeyMetadata`: key id, status string ("Active"/"Inactive" in
normal operation, but the AWS type is an open string), creation timestamp
(modelled as a natural number; the source only compares `CreateDate` values
with `<` and `>`). -/
structure AccessKeyMetadata where
  AccessKeyId : String
  Status : String
  CreateDate : Nat
deriving DecidableEq, Repr

/-- The ordering used by the comparator at `iam-key-rotator.ts:112-119`:
`a` may be placed before `b` exactly when `a.CreateDate ≥ b.CreateDate`
(the comparator returns -1 when `a` is strictly newer, 1 when strictly older,
0 on ties; ties are kept in input order by the stable sort). -/
def keyOrder (a b : AccessKeyMetadata) : Prop :=
  b.CreateDate ≤ a.CreateDate

instance : DecidableRel keyOrder := fun a b => Nat.decLe b.CreateDate a.CreateDate

instance : IsTotal AccessKeyMetadata keyOrder :=
  ⟨fun a b => Nat.le_total b.CreateDate a.CreateDate⟩

instance : IsTrans AccessKeyMetadata keyOrder :=
  ⟨fun _ _ _ h1 h2 => Nat.le_trans h2 h1⟩

/-- `accessKeys.sort(comparator)` at `iam-key-rotator.ts:112-119`: a stable
sort, newest key first.  A stable sort with respect to a total preorder is
unique, so any stable sorting algorithm is a faithful embedding; we use
insertion sort. -/
def sortKeysDesc (ks : List AccessKeyMetadata) : List AccessKeyMetadata :=
  ks.insertionSort keyOrder

/-- One observable effect of a rotation invocation: a mutation request sent to
the credential store (`createKey`/`updateKey`/`deleteKey`), the fixed
grace-period sleep, the distribution call (`push`), or an error that was
caught and written to the log (`logErr`). -/
inductive Event where
  | createKey (id : String)
  | updateKey (id : String) (status : String)
  | deleteKey (id : String)
  | sleep (seconds : Nat)
  | push (id : String) (secret : String)
  | logErr (msg : String)
deriving DecidableEq, Repr

/-- Store semantics of `updateIAMAccessKey` (`iam-key-rotator.ts:31-40`): set
the status of the key(s) carrying the given id. -/
def updateIAMAccessKey (store : List AccessKeyMetadata) (id status : String) :
    List AccessKeyMetadata :=
  store.map fun k => if k.AccessKeyId = id then { k with Status := status } else k

/-- Store semantics of `deleteIAMAccessKey` (`iam-key-rotator.ts:42-49`):
remove the key(s) carrying the given id. -/
def deleteIAMAccessKey (store : List AccessKeyMetadata) (id : String) :
    List AccessKeyMetadata :=
  store.filter fun k => k.AccessKeyId ≠ id

/-- Result of one invocation: the store after the invocation's mutations, and
the trace of observable effects, in order. -/
structure RotateResult where
  store : List AccessKeyMetadata
  trace : List Event
deriving DecidableEq, Repr

/-- Message of the `throw` at `iam-key-rotator.ts:129` (interpolated count
elided). -/
def countMsg : String := "Unexpected number of access keys"

/-- Message of the `throw` at `iam-key-rotator.ts:154` (interpolated status
elided). -/
def statusMsg : String := "Unexpected status for access key"

/-- Message logged by the `catch` around the credential push in the Lambda
callback (`iam-key-rotator.ts:212-215`). -/
def pushFailMsg : String := "Unhandled exception pushing out credentials"

/-- The `try` block of `rotateIAMUserKeys` (`iam-key-rotator.ts:103-158`).
Inputs beyond the store: the id/secret the store would mint for a created key
(`freshId`, `freshSecret`), the creation timestamp `now`, and whether the
distribution call succeeds (`pushOk`; on failure the push error is caught and
logged inside the callback at `iam-key-rotator.ts:208-216`, so it never
escapes).  `.error` is the `throw` of an invariant-violation error; both
throws occur before any mutation, so on `.error` the store is unchanged. -/
def rotateTry (store : List AccessKeyMetadata) (freshId freshSecret : String)
    (now : Nat) (pushOk : Bool) : Except String RotateResult :=
  if (sortKeysDesc store).length > 2 then
    .error countMsg
  else if (sortKeysDesc store).length ≤ 1 then
    .ok { store := store ++ [{ AccessKeyId := freshId, Status := "Active", CreateDate := now }],
          trace := [.createKey freshId, .sleep 1, .push freshId freshSecret] ++
            (if pushOk then [] else [.logErr pushFailMsg]) }
  else
    match (sortKeysDesc store)[1]? with
    | some olderKey =>
      if olderKey.Status = "Active" then
        .ok { store := updateIAMAccessKey store olderKey.AccessKeyId "Inactive",
              trace := [.updateKey olderKey.AccessKeyId "Inactive"] }
      else if olderKey.Status = "Inactive" then
        .ok { store := deleteIAMAccessKey store olderKey.AccessKeyId,
              trace := [.deleteKey olderKey.AccessKeyId] }
      else
        .error statusMsg
    | none =>
      -- unreachable: here the sorted list has length exactly 2
      .error statusMsg

/-- `rotateIAMUserKeys` (`iam-key-rotator.ts:102-162`): the whole function,
including its top-level `try`/`catch` (lines 159-161), which catches any
thrown error and merely logs it, so the function always returns normally. -/
def rotateIAMUserKeys (store : List AccessKeyMetadata) (freshId freshSecret : String)
    (now : Nat) (pushOk : Bool) : RotateResult :=
  match rotateTry store freshId freshSecret now pushOk with
  | .ok r => r
  | .error e => { store := store, trace := [.logErr e] }

/-- Is the event a `createKey` request? -/
def isCreate : Event → Bool
  | .createKey _ => true
  | _ => false

/-- Is the event an `updateKey` request? -/
def isUpdate : Event → Bool
  | .updateKey _ _ => true
  | _ => false

/-- Is the event a `deleteKey` request? -/
def isDelete : Event → Bool
  | .deleteKey _ => true
  | _ => false

/-- Is the event a distribution call? -/
def isPush : Event → Bool
  | .push _ _ => true
  | _ => false

/-- Number of key-creation requests in a trace. -/
def countCreates (t : List Event) : Nat := t.countP isCreate

/-- Number of status-update requests in a trace. -/
def countUpdates (t : List Event) : Nat := t.countP isUpdate

/-- Number of key-deletion requests in a trace. -/
def countDeletes (t : List Event) : Nat := t.countP isDelete

/-- Number of distribution calls in a trace. -/
def countPushes (t : List Event) : Nat := t.countP isPush

/-- The per-invocation inputs of the simulated environment: the id/secret the
store mints if a key is created, the creation timestamp, and whether the
distribution call succeeds. -/
structure RotInput where
  freshId : String
  freshSecret : String
  now : Nat
  pushOk : Bool
deriving DecidableEq, Repr

/-- One invocation of the rotation Lambda against the simulated store. -/
def stepRotate (store : List AccessKeyMetadata) (i : RotInput) : RotateResult :=
  rotateIAMUserKeys store i.freshId i.freshSecret i.now i.pushOk

/-- The store after repeatedly invoking `rotate`, each invocation's mutations
applied by the simulated store. -/
def runRotate (store : List AccessKeyMetadata) : List RotInput → List AccessKeyMetadata
  | [] => store
  | i :: is => runRotate (stepRotate store i).store is

/-- The execution trace of repeated invocations: for each invocation, the
store it observed and the result it produced. -/
def runSteps (store : List AccessKeyMetadata) : List RotInput → List (List AccessKeyMetadata × RotateResult)
  | [] => []
  | i :: is => (store, stepRotate store i) :: runSteps (stepRotate store i).store is

/-- The store mints ids that are not already in use. -/
def freshFor (store : List AccessKeyMetadata) (i : RotInput) : Bool :=
  store.all fun k => k.AccessKeyId ≠ i.freshId

/-- Every invocation's minted id is fresh for the store that invocation
observes. -/
def validInputs (store : List AccessKeyMetadata) : List RotInput → Bool
  | [] => true
  | i :: is => freshFor store i && validInputs (stepRotate store i).store is

/-- Deletion safety of one invocation: every key-deletion request in the
trace targets a key that was Inactive in the observed snapshot (every key of
the snapshot carrying the deleted id is Inactive — so the deleted key is never
the newest Active key), and the deleted id is not the id of the newest key
(the head of the newest-first sorted snapshot). -/
def deleteSafe (store : List AccessKeyMetadata) (r : RotateResult) : Prop :=
  ∀ id, Event.deleteKey id ∈ r.trace →
    (∀ k ∈ store, k.AccessKeyId = id → k.Status = "Inactive") ∧
    (∀ hd, (sortKeysDesc store).head? = some hd → hd.AccessKeyId ≠ id)

/-- `Project` (`credential-pusher.ts`): a location within a 3rd-party service
whose stored AWS credentials are rotated. -/
structure Project where
  project : String
  accessKeyIDLocation : String
  secretAccessKeyLocation : String
deriving DecidableEq, Repr

/-- `ServiceConfiguration` (`credential-pusher.ts`): the service access key
and the projects to push credentials to. -/
structure ServiceConfiguration where
  accessKey : String
  projects : List Project
deriving DecidableEq, Repr

/-- The part of the `Service` interface (`credential-pusher.ts`) that the
`CredentialPusher` constructor uses. -/
structure Service where
  validateConfiguration : ServiceConfiguration → Option String

/-- A constructed `CredentialPusher` (`credential-pusher.ts:33-39`). -/
structure CredentialPusher where
  service : Service
  config : ServiceConfiguration

/-- The `CredentialPusher` constructor (`credential-pusher.ts:34-39`): it
calls `service.validateConfiguration` and throws (here: returns `.error`) on
any returned error, so an instance exists only for validated configurations. -/
def mkCredentialPusher (service : Service) (config : ServiceConfiguration) :
    Except String CredentialPusher :=
  match service.validateConfiguration config with
  | some e => .error ("validation CredentialPusher configuration: " ++ e)
  | none => .ok { service := service, config := config }

/-- `TravisCIPusher.validateConfiguration`
(`credential-pusher-travis.ts:25-33`).  TypeScript truthiness: an absent
access key is the empty string; absent projects are the empty list. -/
def TravisCIPusher.validateConfiguration (config : ServiceConfiguration) : Option String :=
  if config.accessKey = "" then some "No Travis CI access key provided."
  else if config.projects.length = 0 then some "No projects to push credentials to."
  else none

/-- The Travis CI `Service` as seen by the `CredentialPusher` constructor. -/
def travisService : Service :=
  { validateConfiguration := TravisCIPusher.validateConfiguration }

/-- A sample project descriptor for concrete witnesses. -/
def sampleProject : Project :=
  { project := "owner/repo", accessKeyIDLocation := "AWS_ACCESS_KEY_ID",
    secretAccessKeyLocation := "AWS_SECRET_ACCESS_KEY" }

/-- A sample configuration that validates. -/
def goodConfig : ServiceConfiguration :=
  { accessKey := "travis-token", projects := [sampleProject] }

/-- A sample configuration with no projects. -/
def noProjectsConfig : ServiceConfiguration :=
  { accessKey := "travis-token", projects := [] }

/-- `TravisEnvVar` (`credential-pusher-travis.ts:17-22`): all fields optional,
as in the Travis API type. -/
structure TravisEnvVar where
  id : Option String
  name : Option String
  public : Option Bool
  value : Option String
deriving DecidableEq, Repr

/-- The env-var scan loop of `pushNewCredentials`
(`credential-pusher-travis.ts:53-62`): walk the variables, skipping entries
whose id is missing or empty (TypeScript truthiness of `!envVar.id`);
a variable named like the key-id location sets the first handle, otherwise one
named like the secret location sets the second handle; later matches
overwrite earlier ones.  `acc` holds the two handles, initially `("", "")`. -/
def findEnvVarIds (keyLoc secretLoc : String) :
    List TravisEnvVar → String × String → String × String
  | [], acc => acc
  | v :: vs, acc =>
    if v.id.getD "" = "" then findEnvVarIds keyLoc secretLoc vs acc
    else if v.name = some keyLoc then
      findEnvVarIds keyLoc secretLoc vs (v.id.getD "", acc.2)
    else if v.name = some secretLoc then
      findEnvVarIds keyLoc secretLoc vs (acc.1, v.id.getD "")
    else findEnvVarIds keyLoc secretLoc vs acc

/-- The two handles resolved for a project from its env-var list. -/
def resolvedIds (p : Project) (envVars : List TravisEnvVar) : String × String :=
  findEnvVarIds p.accessKeyIDLocation p.secretAccessKeyLocation envVars ("", "")

/-- Effect of the PATCH request (`credential-pusher-travis.ts:72-77` and
`81-86`) on the project's env-var list: the variable with the given Travis id
gets the new value and publicness. -/
def patchEnvVar (vars : List TravisEnvVar) (varId newValue : String) (pub : Bool) :
    List TravisEnvVar :=
  vars.map fun v =>
    if v.id = some varId then { v with value := some newValue, public := some pub } else v

/-- The per-project body of `pushNewCredentials`
(`credential-pusher-travis.ts:38-88`).  `resp` is the env-var list returned by
the GET, `none` when the response lacks the expected shape (the check at
lines 48-50).  Both handles are resolved before either PATCH is issued; a
missing handle throws, so an error leaves the project's variables untouched. -/
def pushToProject (p : Project) (resp : Option (List TravisEnvVar))
    (newAccessKeyId newSecretAccessKey : String) :
    Except String (List TravisEnvVar) :=
  match resp with
  | none => .error "Did not get list of Travis project credentials as expected."
  | some envVars =>
    if (resolvedIds p envVars).1 = "" then
      .error ("Unable to find Travis CI environment variable with name " ++
        p.accessKeyIDLocation)
    else if (resolvedIds p envVars).2 = "" then
      .error ("Unable to find Travis CI environment variable with name " ++
        p.secretAccessKeyLocation)
    else
      .ok (patchEnvVar
        (patchEnvVar envVars (resolvedIds p envVars).1 newAccessKeyId true)
        (resolvedIds p envVars).2 newSecretAccessKey false)

/-- The remote Travis service, as the pusher observes it: each project slug
maps to its env-var list. -/
def TravisState : Type := List (String × List TravisEnvVar)

/-- The GET of a project's env vars. -/
def lookupProject : TravisState → String → Option (List TravisEnvVar)
  | [], _ => none
  | e :: es, slug => if e.1 = slug then some e.2 else lookupProject es slug

/-- Replacing a known project's env-var list. -/
def setProject (st : TravisState) (slug : String) (vars : List TravisEnvVar) :
    TravisState :=
  st.map fun e => if e.1 = slug then (slug, vars) else e

/-- The project loop of `pushNewCredentials`
(`credential-pusher-travis.ts:38-88`): projects are processed in
configuration order; a thrown error aborts the loop, leaving the updates of
the already-processed projects in place (no rollback).  Returns the final
service state and the error, if one was thrown. -/
def pushNewCredentials (projects : List Project) (st : TravisState)
    (newAccessKeyId newSecretAccessKey : String) : TravisState × Option String :=
  match projects with
  | [] => (st, none)
  | p :: ps =>
    match pushToProject p (lookupProject st p.project) newAccessKeyId newSecretAccessKey with
    | .error e => (st, some e)
    | .ok vars =>
      pushNewCredentials ps (setProject st p.project vars) newAccessKeyId newSecretAccessKey

/-- Sample env vars of a Travis project holding both configured locations. -/
def sampleEnvVars : List TravisEnvVar :=
  [{ id := some "ev-1", name := some "AWS_ACCESS_KEY_ID", public := some true, value := some "oldId" },
   { id := some "ev-2", name := some "AWS_SECRET_ACCESS_KEY", public := some false, value := some "oldSecret" }]

/-- A project absent from the service state: its env-var GET yields no list. -/
def missingProject : Project :=
  { project := "owner/missing", accessKeyIDLocation := "AWS_ACCESS_KEY_ID",
    secretAccessKeyLocation := "AWS_SECRET_ACCESS_KEY" }

/-- A concrete service state knowing only the sample project. -/
def sampleState : TravisState := [("owner/repo", sampleEnvVars)]

/-- The sorted list has the length of the fetched list. -/
lemma sortKeysDesc_length (ks : List AccessKeyMetadata) :
    (sortKeysDesc ks).length = ks.length :=
  List.length_insertionSort keyOrder ks

/-- The sorted list is a permutation of the fetched list. -/
lemma sortKeysDesc_perm (ks : List AccessKeyMetadata) :
    (sortKeysDesc ks).Perm ks :=
  List.perm_insertionSort keyOrder ks

/-- Stability of the sort: the keys carrying any fixed creation date appear in
the sorted list exactly in their fetched order. -/
lemma sortKeysDesc_filter_date (ks : List AccessKeyMetadata) (d : Nat) :
    (sortKeysDesc ks).filter (fun k => decide (k.CreateDate = d)) =
      ks.filter (fun k => decide (k.CreateDate = d)) := by
  set p : AccessKeyMetadata → Bool := fun k => decide (k.CreateDate = d) with hp
  have hdate : ∀ k ∈ ks.filter p, k.CreateDate = d := by
    intro k hk
    have := List.of_mem_filter hk
    simpa [hp] using this
  have hpair : (ks.filter p).Pairwise keyOrder := by
    apply List.pairwise_of_forall_mem_list
    intro a ha b hb
    unfold keyOrder
    rw [hdate a ha, hdate b hb]
  have hsub : List.Sublist (ks.filter p) (sortKeysDesc ks) :=
    List.sublist_insertionSort hpair (List.filter_sublist ks)
  have hsub2 : List.Sublist ((ks.filter p).filter p) ((sortKeysDesc ks).filter p) :=
    hsub.filter p
  have hself : (ks.filter p).filter p = ks.filter p := by
    rw [List.filter_eq_self]
    intro a ha
    exact List.of_mem_filter ha
  rw [hself] at hsub2
  have hlen : (ks.filter p).length = ((sortKeysDesc ks).filter p).length := by
    rw [← List.countP_eq_length_filter, ← List.countP_eq_length_filter]
    exact ((sortKeysDesc_perm ks).countP_eq p).symm
  exact (hsub2.eq_of_length hlen).symm

/--
C7. `rotate` branches on `sortKeysDesc` of the fetched list, which is a
permutation of the fetched list, pairwise ordered by creation timestamp
descending (newest first), and stable: the keys carrying any fixed creation
timestamp keep their relative order from the fetched list, so the sorted list
(and hence the chosen action) is a deterministic function of the fetched list.
-/
theorem sortKeysDesc_spec (ks : List AccessKeyMetadata) :
    (sortKeysDesc ks).Perm ks ∧
    (sortKeysDesc ks).Pairwise (fun a b => b.CreateDate ≤ a.CreateDate) ∧
    ∀ d : Nat, (sortKeysDesc ks).filter (fun k => decide (k.CreateDate = d)) =
      ks.filter (fun k => decide (k.CreateDate = d)) :=
  ⟨sortKeysDesc_perm ks, List.sorted_insertionSort keyOrder ks,
    sortKeysDesc_filter_date ks⟩

/-- Branch characterization: more than two keys (`iam-key-rotator.ts:126-129`). -/
lemma rotateTry_of_gt_two {store : List AccessKeyMetadata}
    (freshId freshSecret : String) (now : Nat) (pushOk : Bool)
    (h : 2 < store.length) :
    rotateTry store freshId freshSecret now pushOk = .error countMsg := by
  unfold rotateTry
  rw [if_pos]
  rw [sortKeysDesc_length]
  omega

/-- Branch characterization: zero or one key (`iam-key-rotator.ts:130-138`). -/
lemma rotateTry_of_le_one {store : List AccessKeyMetadata}
    (freshId freshSecret : String) (now : Nat) (pushOk : Bool)
    (h : store.length ≤ 1) :
    rotateTry store freshId freshSecret now pushOk =
      .ok { store := store ++ [{ AccessKeyId := freshId, Status := "Active", CreateDate := now }],
            trace := [.createKey freshId, .sleep 1, .push freshId freshSecret] ++
              (if pushOk then [] else [.logErr pushFailMsg]) } := by
  unfold rotateTry
  rw [if_neg, if_pos]
  · rw [sortKeysDesc_length]; omega
  · rw [sortKeysDesc_length]; omega

/-- Branch characterization: exactly two keys (`iam-key-rotator.ts:139-156`),
as a function of the older key (index 1 of the sorted snapshot). -/
lemma rotateTry_of_two {store : List AccessKeyMetadata}
    (freshId freshSecret : String) (now : Nat) (pushOk : Bool)
    {older : AccessKeyMetadata}
    (h : store.length = 2) (holder : (sortKeysDesc store)[1]? = some older) :
    rotateTry store freshId freshSecret now pushOk =
      (if older.Status = "Active" then
        .ok { store := updateIAMAccessKey store older.AccessKeyId "Inactive",
              trace := [.updateKey older.AccessKeyId "Inactive"] }
      else if older.Status = "Inactive" then
        .ok { store := deleteIAMAccessKey store older.AccessKeyId,
              trace := [.deleteKey older.AccessKeyId] }
      else .error statusMsg) := by
  unfold rotateTry
  rw [if_neg, if_neg, holder]
  · rw [sortKeysDesc_length]; omega
  · rw [sortKeysDesc_length]; omega

/-- The catch at `iam-key-rotator.ts:159-161` is transparent when the try
block completes. -/
lemma rotate_eq_of_try {store : List AccessKeyMetadata}
    {freshId freshSecret : String} {now : Nat} {pushOk : Bool} {r : RotateResult}
    (h : rotateTry store freshId freshSecret now pushOk = .ok r) :
    rotateIAMUserKeys store freshId freshSecret now pushOk = r := by
  unfold rotateIAMUserKeys
  rw [h]

/-- The catch at `iam-key-rotator.ts:159-161` turns a thrown error into a log
line, leaving the store as the try block left it (unchanged, for the two
throw sites). -/
lemma rotate_eq_of_try_error {store : List AccessKeyMetadata}
    {freshId freshSecret : String} {now : Nat} {pushOk : Bool} {e : String}
    (h : rotateTry store freshId freshSecret now pushOk = .error e) :
    rotateIAMUserKeys store freshId freshSecret now pushOk =
      { store := store, trace := [.logErr e] } := by
  unfold rotateIAMUserKeys
  rw [h]

/-- A snapshot of at least two keys has a key at index 1 of the sorted list. -/
lemma exists_older {store : List AccessKeyMetadata} (h : 2 ≤ store.length) :
    ∃ older, (sortKeysDesc store)[1]? = some older := by
  have h1 : 1 < (sortKeysDesc store).length := by
    rw [sortKeysDesc_length]; omega
  exact ⟨(sortKeysDesc store).get ⟨1, h1⟩, List.getElem?_eq_getElem h1⟩

/-- On a snapshot of two or more keys, no key creation and no distribution
call occurs. -/
lemma rotate_no_create_push_of_ge_two (store : List AccessKeyMetadata)
    (freshId freshSecret : String) (now : Nat) (pushOk : Bool)
    (h : 2 ≤ store.length) :
    countCreates (rotateIAMUserKeys store freshId freshSecret now pushOk).trace = 0 ∧
    countPushes (rotateIAMUserKeys store freshId freshSecret now pushOk).trace = 0 := by
  rcases Nat.lt_or_ge 2 store.length with hgt | hle
  · have hr := rotate_eq_of_try_error (rotateTry_of_gt_two freshId freshSecret now pushOk hgt)
    rw [hr]
    simp [countCreates, countPushes, List.countP_cons, isCreate, isPush]
  · have hlen : store.length = 2 := by omega
    obtain ⟨older, holder⟩ := exists_older h
    have ht := rotateTry_of_two freshId freshSecret now pushOk hlen holder
    by_cases hA : older.Status = "Active"
    · rw [if_pos hA] at ht
      rw [rotate_eq_of_try ht]
      simp [countCreates, countPushes, List.countP_cons, isCreate, isPush]
    · rw [if_neg hA] at ht
      by_cases hI : older.Status = "Inactive"
      · rw [if_pos hI] at ht
        rw [rotate_eq_of_try ht]
        simp [countCreates, countPushes, List.countP_cons, isCreate, isPush]
      · rw [if_neg hI] at ht
        rw [rotate_eq_of_try_error ht]
        simp [countCreates, countPushes, List.countP_cons, isCreate, isPush]

/--
C2. On a snapshot of 0 or 1 keys, `rotate` performs exactly one create and no
status update or delete, then after the fixed grace-period sleep makes exactly
one distribution call with the created key's id and secret (the push error, if
any, being caught and logged afterwards); and on any snapshot of 2 or more
keys no create and no distribution call occurs, so the 0-or-1-key branch is
the only source of creates and distribution calls.
-/
theorem rotate_create_and_distribute (store : List AccessKeyMetadata)
    (freshId freshSecret : String) (now : Nat) (pushOk : Bool) :
    (store.length ≤ 1 →
      rotateIAMUserKeys store freshId freshSecret now pushOk =
        { store := store ++ [{ AccessKeyId := freshId, Status := "Active", CreateDate := now }],
          trace := [.createKey freshId, .sleep 1, .push freshId freshSecret] ++
            (if pushOk then [] else [.logErr pushFailMsg]) } ∧
      countCreates (rotateIAMUserKeys store freshId freshSecret now pushOk).trace = 1 ∧
      countUpdates (rotateIAMUserKeys store freshId freshSecret now pushOk).trace = 0 ∧
      countDeletes (rotateIAMUserKeys store freshId freshSecret now pushOk).trace = 0 ∧
      countPushes (rotateIAMUserKeys store freshId freshSecret now pushOk).trace = 1) ∧
    (2 ≤ store.length →
      countCreates (rotateIAMUserKeys store freshId freshSecret now pushOk).trace = 0 ∧
      countPushes (rotateIAMUserKeys store freshId freshSecret now pushOk).trace = 0) := by
  constructor
  · intro h
    have hr := rotate_eq_of_try (rotateTry_of_le_one freshId freshSecret now pushOk h)
    refine ⟨hr, ?_⟩
    rw [hr]
    cases pushOk <;>
      simp [countCreates, countUpdates, countDeletes, countPushes,
        List.countP_cons, isCreate, isUpdate, isDelete, isPush]
  · intro h
    exact rotate_no_create_push_of_ge_two store freshId freshSecret now pushOk h

/-- Witness for C2 at concrete inputs: an empty snapshot, and a two-key
snapshot. -/
theorem rotate_create_and_distribute_witness :
    (rotateIAMUserKeys [] "k0" "s0" 5 true).trace =
      [Event.createKey "k0", Event.sleep 1, Event.push "k0" "s0"] ∧
    countPushes (rotateIAMUserKeys
      [{ AccessKeyId := "k1", Status := "Active", CreateDate := 1 },
       { AccessKeyId := "k2", Status := "Active", CreateDate := 2 }] "f" "s" 9 true).trace = 0 := by
  have h1 := (rotate_create_and_distribute [] "k0" "s0" 5 true).1 (by decide)
  have h2 := (rotate_create_and_distribute
    [{ AccessKeyId := "k1", Status := "Active", CreateDate := 1 },
     { AccessKeyId := "k2", Status := "Active", CreateDate := 2 }] "f" "s" 9 true).2 (by decide)
  exact ⟨by rw [h1.1]; rfl, h2.2⟩

/--
C3. On a snapshot of exactly 2 keys, `rotate` acts only on the older key
(index 1 of the newest-first sorted snapshot): if it is Active, exactly one
status update setting it Inactive and nothing else; if it is Inactive, exactly
one delete of it and nothing else; and in every case each key whose id differs
from the older key's id is still present, unchanged, in the store afterwards.
-/
theorem rotate_two_keys (store : List AccessKeyMetadata)
    (freshId freshSecret : String) (now : Nat) (pushOk : Bool)
    (older : AccessKeyMetadata)
    (hlen : store.length = 2)
    (holder : (sortKeysDesc store)[1]? = some older) :
    (older.Status = "Active" →
      rotateIAMUserKeys store freshId freshSecret now pushOk =
        { store := updateIAMAccessKey store older.AccessKeyId "Inactive",
          trace := [.updateKey older.AccessKeyId "Inactive"] } ∧
      countUpdates (rotateIAMUserKeys store freshId freshSecret now pushOk).trace = 1 ∧
      countCreates (rotateIAMUserKeys store freshId freshSecret now pushOk).trace = 0 ∧
      countDeletes (rotateIAMUserKeys store freshId freshSecret now pushOk).trace = 0 ∧
      countPushes (rotateIAMUserKeys store freshId freshSecret now pushOk).trace = 0) ∧
    (older.Status = "Inactive" →
      rotateIAMUserKeys store freshId freshSecret now pushOk =
        { store := deleteIAMAccessKey store older.AccessKeyId,
          trace := [.deleteKey older.AccessKeyId] } ∧
      countDeletes (rotateIAMUserKeys store freshId freshSecret now pushOk).trace = 1 ∧
      countCreates (rotateIAMUserKeys store freshId freshSecret now pushOk).trace = 0 ∧
      countUpdates (rotateIAMUserKeys store freshId freshSecret now pushOk).trace = 0 ∧
      countPushes (rotateIAMUserKeys store freshId freshSecret now pushOk).trace = 0) ∧
    (∀ k ∈ store, k.AccessKeyId ≠ older.AccessKeyId →
      k ∈ (rotateIAMUserKeys store freshId freshSecret now pushOk).store) := by
  have ht := rotateTry_of_two freshId freshSecret now pushOk hlen holder
  refine ⟨?_, ?_, ?_⟩
  · intro hA
    rw [if_pos hA] at ht
    have hr := rotate_eq_of_try ht
    refine ⟨hr, ?_⟩
    rw [hr]
    simp [countCreates, countUpdates, countDeletes, countPushes,
      List.countP_cons, isCreate, isUpdate, isDelete, isPush]
  · intro hI
    have hA : ¬ older.Status = "Active" := by rw [hI]; decide
    rw [if_neg hA, if_pos hI] at ht
    have hr := rotate_eq_of_try ht
    refine ⟨hr, ?_⟩
    rw [hr]
    simp [countCreates, countUpdates, countDeletes, countPushes,
      List.countP_cons, isCreate, isUpdate, isDelete, isPush]
  · intro k hk hne
    by_cases hA : older.Status = "Active"
    · rw [if_pos hA] at ht
      rw [rotate_eq_of_try ht]
      unfold updateIAMAccessKey
      have hmem := List.mem_map_of_mem
        (fun k => if k.AccessKeyId = older.AccessKeyId
          then { k with Status := "Inactive" } else k) hk
      simpa [hne] using hmem
    · rw [if_neg hA] at ht
      by_cases hI : older.Status = "Inactive"
      · rw [if_pos hI] at ht
        rw [rotate_eq_of_try ht]
        exact List.mem_filter.mpr ⟨hk, by simpa using hne⟩
      · rw [if_neg hI] at ht
        rw [rotate_eq_of_try_error ht]
        exact hk

/-- Witness for C3: a concrete two-key snapshot, older key Active. -/
theorem rotate_two_keys_witness :
    rotateIAMUserKeys
      [{ AccessKeyId := "k1", Status := "Active", CreateDate := 1 },
       { AccessKeyId := "k2", Status := "Active", CreateDate := 2 }] "f" "s" 9 true =
      { store := [{ AccessKeyId := "k1", Status := "Inactive", CreateDate := 1 },
                  { AccessKeyId := "k2", Status := "Active", CreateDate := 2 }],
        trace := [Event.updateKey "k1" "Inactive"] } := by
  have h := (rotate_two_keys
    [{ AccessKeyId := "k1", Status := "Active", CreateDate := 1 },
     { AccessKeyId := "k2", Status := "Active", CreateDate := 2 }] "f" "s" 9 true
    { AccessKeyId := "k1", Status := "Active", CreateDate := 1 }
    (by decide) (by rfl)).1 (by rfl)
  rw [h.1]
  rfl

/--
C4. On a snapshot of more than 2 keys, and on a snapshot of exactly 2 keys
whose older key has a status other than Active and Inactive, the rotation body
throws an invariant-violation error and performs no mutation: the store is
unchanged and the trace contains no create, no status update, no delete and no
distribution call (only the log line written by the catch).
-/
theorem rotate_fatal_no_mutation (store : List AccessKeyMetadata)
    (freshId freshSecret : String) (now : Nat) (pushOk : Bool) :
    (2 < store.length →
      rotateTry store freshId freshSecret now pushOk = .error countMsg ∧
      rotateIAMUserKeys store freshId freshSecret now pushOk =
        { store := store, trace := [.logErr countMsg] } ∧
      countCreates (rotateIAMUserKeys store freshId freshSecret now pushOk).trace = 0 ∧
      countUpdates (rotateIAMUserKeys store freshId freshSecret now pushOk).trace = 0 ∧
      countDeletes (rotateIAMUserKeys store freshId freshSecret now pushOk).trace = 0 ∧
      countPushes (rotateIAMUserKeys store freshId freshSecret now pushOk).trace = 0) ∧
    (∀ older, store.length = 2 → (sortKeysDesc store)[1]? = some older →
      older.Status ≠ "Active" → older.Status ≠ "Inactive" →
      rotateTry store freshId freshSecret now pushOk = .error statusMsg ∧
      rotateIAMUserKeys store freshId freshSecret now pushOk =
        { store := store, trace := [.logErr statusMsg] } ∧
      countCreates (rotateIAMUserKeys store freshId freshSecret now pushOk).trace = 0 ∧
      countUpdates (rotateIAMUserKeys store freshId freshSecret now pushOk).trace = 0 ∧
      countDeletes (rotateIAMUserKeys store freshId freshSecret now pushOk).trace = 0 ∧
      countPushes (rotateIAMUserKeys store freshId freshSecret now pushOk).trace = 0) := by
  constructor
  · intro h
    have ht := rotateTry_of_gt_two freshId freshSecret now pushOk h
    refine ⟨ht, rotate_eq_of_try_error ht, ?_⟩
    rw [rotate_eq_of_try_error ht]
    simp [countCreates, countUpdates, countDeletes, countPushes,
      List.countP_cons, isCreate, isUpdate, isDelete, isPush]
  · intro older hlen holder hA hI
    have ht := rotateTry_of_two freshId freshSecret now pushOk hlen holder
    rw [if_neg hA, if_neg hI] at ht
    refine ⟨ht, rotate_eq_of_try_error ht, ?_⟩
    rw [rotate_eq_of_try_error ht]
    simp [countCreates, countUpdates, countDeletes, countPushes,
      List.countP_cons, isCreate, isUpdate, isDelete, isPush]

/-- Witness for C4: a concrete three-key snapshot, and a concrete two-key
snapshot whose older key carries the unexpected status "Frozen". -/
theorem rotate_fatal_no_mutation_witness :
    rotateIAMUserKeys
      [{ AccessKeyId := "k1", Status := "Active", CreateDate := 1 },
       { AccessKeyId := "k2", Status := "Active", CreateDate := 2 },
       { AccessKeyId := "k3", Status := "Active", CreateDate := 3 }] "f" "s" 9 true =
      { store := [{ AccessKeyId := "k1", Status := "Active", CreateDate := 1 },
                  { AccessKeyId := "k2", Status := "Active", CreateDate := 2 },
                  { AccessKeyId := "k3", Status := "Active", CreateDate := 3 }],
        trace := [Event.logErr countMsg] } ∧
    rotateIAMUserKeys
      [{ AccessKeyId := "k1", Status := "Frozen", CreateDate := 1 },
       { AccessKeyId := "k2", Status := "Active", CreateDate := 2 }] "f" "s" 9 true =
      { store := [{ AccessKeyId := "k1", Status := "Frozen", CreateDate := 1 },
                  { AccessKeyId := "k2", Status := "Active", CreateDate := 2 }],
        trace := [Event.logErr statusMsg] } := by
  have h1 := (rotate_fatal_no_mutation
    [{ AccessKeyId := "k1", Status := "Active", CreateDate := 1 },
     { AccessKeyId := "k2", Status := "Active", CreateDate := 2 },
     { AccessKeyId := "k3", Status := "Active", CreateDate := 3 }] "f" "s" 9 true).1
    (by decide)
  have h2 := (rotate_fatal_no_mutation
    [{ AccessKeyId := "k1", Status := "Frozen", CreateDate := 1 },
     { AccessKeyId := "k2", Status := "Active", CreateDate := 2 }] "f" "s" 9 true).2
    { AccessKeyId := "k1", Status := "Frozen", CreateDate := 1 }
    (by decide) (by rfl) (by decide) (by decide)
  exact ⟨h1.2.1, h2.2.1⟩

/--
C5 counterexample. On a concrete three-key snapshot the invariant-violation
error is thrown inside the try block (`rotateTry` returns `.error`), but
`rotateIAMUserKeys` — the function the Lambda callback calls, including the
catch at `iam-key-rotator.ts:159-161` — returns a normal result whose trace
merely logs the error: the invocation completes normally instead of failing.
-/
theorem rotate_fatal_not_surfaced_cex :
    rotateTry
      [{ AccessKeyId := "k1", Status := "Active", CreateDate := 1 },
       { AccessKeyId := "k2", Status := "Active", CreateDate := 2 },
       { AccessKeyId := "k3", Status := "Active", CreateDate := 3 }] "f" "s" 9 true =
      Except.error countMsg ∧
    rotateIAMUserKeys
      [{ AccessKeyId := "k1", Status := "Active", CreateDate := 1 },
       { AccessKeyId := "k2", Status := "Active", CreateDate := 2 },
       { AccessKeyId := "k3", Status := "Active", CreateDate := 3 }] "f" "s" 9 true =
      { store := [{ AccessKeyId := "k1", Status := "Active", CreateDate := 1 },
                  { AccessKeyId := "k2", Status := "Active", CreateDate := 2 },
                  { AccessKeyId := "k3", Status := "Active", CreateDate := 3 }],
        trace := [Event.logErr countMsg] } := by
  constructor <;> rfl

/--
C5 amended. On every fatal snapshot (more than 2 keys, or exactly 2 keys with
an unrecognized older-key status) the invariant-violation error is thrown and
aborts the invocation without mutation, but it is caught by `rotate`'s own
top-level catch and logged: `rotateIAMUserKeys` always returns normally, with
the store unchanged and the error only in the log trace, so the error is not
surfaced to the caller.
-/
theorem rotate_fatal_caught_and_logged (store : List AccessKeyMetadata)
    (freshId freshSecret : String) (now : Nat) (pushOk : Bool)
    (hfatal : 2 < store.length ∨
      (∃ older, store.length = 2 ∧ (sortKeysDesc store)[1]? = some older ∧
        older.Status ≠ "Active" ∧ older.Status ≠ "Inactive")) :
    ∃ e, rotateTry store freshId freshSecret now pushOk = .error e ∧
      rotateIAMUserKeys store freshId freshSecret now pushOk =
        { store := store, trace := [.logErr e] } := by
  rcases hfatal with h | ⟨older, hlen, holder, hA, hI⟩
  · have ht := rotateTry_of_gt_two freshId freshSecret now pushOk h
    exact ⟨countMsg, ht, rotate_eq_of_try_error ht⟩
  · have ht := rotateTry_of_two freshId freshSecret now pushOk hlen holder
    rw [if_neg hA, if_neg hI] at ht
    exact ⟨statusMsg, ht, rotate_eq_of_try_error ht⟩

/-- Witness for the amended C5: the concrete two-key snapshot with status
"Frozen" on the older key. -/
theorem rotate_fatal_caught_and_logged_witness :
    ∃ e, rotateTry
        [{ AccessKeyId := "k1", Status := "Frozen", CreateDate := 1 },
         { AccessKeyId := "k2", Status := "Active", CreateDate := 2 }] "f" "s" 9 true =
        .error e ∧
      rotateIAMUserKeys
        [{ AccessKeyId := "k1", Status := "Frozen", CreateDate := 1 },
         { AccessKeyId := "k2", Status := "Active", CreateDate := 2 }] "f" "s" 9 true =
        { store := [{ AccessKeyId := "k1", Status := "Frozen", CreateDate := 1 },
                    { AccessKeyId := "k2", Status := "Active", CreateDate := 2 }],
          trace := [.logErr e] } :=
  rotate_fatal_caught_and_logged
    [{ AccessKeyId := "k1", Status := "Frozen", CreateDate := 1 },
     { AccessKeyId := "k2", Status := "Active", CreateDate := 2 }] "f" "s" 9 true
    (Or.inr ⟨{ AccessKeyId := "k1", Status := "Frozen", CreateDate := 1 },
      by decide, by rfl, by decide, by decide⟩)

/--
C6. When the distribution call fails after a key creation on a 0-or-1-key
snapshot, the push error is caught and logged (the trace records the push
attempt followed by the log line, and the invocation still returns normally);
the created key is not rolled back — it stays in the store with status Active;
and no invocation on a 2-key snapshot ever makes a distribution call, so the
undistributed key is never re-pushed.
-/
theorem rotate_push_failure (store : List AccessKeyMetadata)
    (freshId freshSecret : String) (now : Nat) :
    (store.length ≤ 1 →
      (rotateIAMUserKeys store freshId freshSecret now false).trace =
        [.createKey freshId, .sleep 1, .push freshId freshSecret, .logErr pushFailMsg] ∧
      (rotateIAMUserKeys store freshId freshSecret now false).store =
        store ++ [{ AccessKeyId := freshId, Status := "Active", CreateDate := now }] ∧
      { AccessKeyId := freshId, Status := "Active", CreateDate := now } ∈
        (rotateIAMUserKeys store freshId freshSecret now false).store) ∧
    (store.length = 2 → ∀ pushOk,
      countPushes (rotateIAMUserKeys store freshId freshSecret now pushOk).trace = 0) := by
  constructor
  · intro h
    have hr := rotate_eq_of_try (rotateTry_of_le_one freshId freshSecret now false h)
    rw [hr]
    refine ⟨rfl, rfl, ?_⟩
    simp
  · intro h pushOk
    exact (rotate_no_create_push_of_ge_two store freshId freshSecret now pushOk (by omega)).2

/-- Witness for C6: a concrete one-key snapshot with a failing push, and a
concrete two-key snapshot. -/
theorem rotate_push_failure_witness :
    (rotateIAMUserKeys
      [{ AccessKeyId := "k1", Status := "Active", CreateDate := 1 }] "k2" "s2" 5 false).trace =
      [Event.createKey "k2", Event.sleep 1, Event.push "k2" "s2", Event.logErr pushFailMsg] ∧
    countPushes (rotateIAMUserKeys
      [{ AccessKeyId := "k1", Status := "Active", CreateDate := 1 },
       { AccessKeyId := "k2", Status := "Active", CreateDate := 2 }] "f" "s" 9 true).trace = 0 := by
  have h1 := (rotate_push_failure
    [{ AccessKeyId := "k1", Status := "Active", CreateDate := 1 }] "k2" "s2" 5).1 (by decide)
  have h2 := (rotate_push_failure
    [{ AccessKeyId := "k1", Status := "Active", CreateDate := 1 },
     { AccessKeyId := "k2", Status := "Active", CreateDate := 2 }] "f" "s" 9).2 (by decide) true
  exact ⟨h1.1, h2⟩

/-- Status updates do not change the ids of the stored keys. -/
lemma updateIAMAccessKey_map_id (store : List AccessKeyMetadata) (id status : String) :
    (updateIAMAccessKey store id status).map AccessKeyMetadata.AccessKeyId =
      store.map AccessKeyMetadata.AccessKeyId := by
  unfold updateIAMAccessKey
  rw [List.map_map]
  apply List.map_congr_left
  intro k _
  by_cases h : k.AccessKeyId = id
  · simp [h]
  · simp [h]

/-- One invocation preserves the store invariant: at most 2 keys, all ids
distinct. -/
lemma stepRotate_good (store : List AccessKeyMetadata) (i : RotInput)
    (hlen : store.length ≤ 2)
    (hnodup : (store.map AccessKeyMetadata.AccessKeyId).Nodup)
    (hfresh : freshFor store i = true) :
    (stepRotate store i).store.length ≤ 2 ∧
    ((stepRotate store i).store.map AccessKeyMetadata.AccessKeyId).Nodup := by
  have hfresh2 : ∀ k ∈ store, k.AccessKeyId ≠ i.freshId := by
    simpa [freshFor, List.all_eq_true] using hfresh
  unfold stepRotate
  rcases (Nat.lt_or_ge 1 store.length).symm with h1 | h1
  · have hr := rotate_eq_of_try (rotateTry_of_le_one i.freshId i.freshSecret i.now i.pushOk h1)
    rw [hr]
    constructor
    · simp; omega
    · simp only [List.map_append, List.map_cons, List.map_nil]
      rw [List.nodup_append]
      refine ⟨hnodup, by simp, ?_⟩
      intro a ha
      simp only [List.mem_map] at ha
      obtain ⟨k, hk, hka⟩ := ha
      simp only [List.mem_cons, List.not_mem_nil, or_false]
      rw [← hka]
      exact hfresh2 k hk
  · have hlen2 : store.length = 2 := by omega
    have h2le : 2 ≤ store.length := by omega
    obtain ⟨older, holder⟩ := exists_older h2le
    have ht := rotateTry_of_two i.freshId i.freshSecret i.now i.pushOk hlen2 holder
    by_cases hA : older.Status = "Active"
    · rw [if_pos hA] at ht
      rw [rotate_eq_of_try ht]
      constructor
      · simp only [updateIAMAccessKey, List.length_map]; omega
      · rw [updateIAMAccessKey_map_id]; exact hnodup
    · rw [if_neg hA] at ht
      by_cases hI : older.Status = "Inactive"
      · rw [if_pos hI] at ht
        rw [rotate_eq_of_try ht]
        constructor
        · exact Nat.le_trans (List.length_filter_le _ _) hlen
        · exact ((List.filter_sublist store).map _).nodup hnodup
      · rw [if_neg hI] at ht
        rw [rotate_eq_of_try_error ht]
        exact ⟨hlen, hnodup⟩

/-- One invocation is deletion-safe whenever the observed snapshot has
pairwise-distinct ids. -/
lemma stepRotate_deleteSafe (store : List AccessKeyMetadata) (i : RotInput)
    (hnodup : (store.map AccessKeyMetadata.AccessKeyId).Nodup) :
    deleteSafe store (stepRotate store i) := by
  intro id hid
  unfold stepRotate at hid
  rcases (Nat.lt_or_ge 1 store.length).symm with h1 | h1
  · rw [rotate_eq_of_try (rotateTry_of_le_one i.freshId i.freshSecret i.now i.pushOk h1)] at hid
    rcases i.pushOk <;> simp at hid
  · rcases Nat.lt_or_ge 2 store.length with hgt | hle
    · rw [rotate_eq_of_try_error (rotateTry_of_gt_two i.freshId i.freshSecret i.now i.pushOk hgt)] at hid
      simp at hid
    · have hlen2 : store.length = 2 := by omega
      have h2le : 2 ≤ store.length := by omega
      obtain ⟨older, holder⟩ := exists_older h2le
      have ht := rotateTry_of_two i.freshId i.freshSecret i.now i.pushOk hlen2 holder
      have hsortlen : (sortKeysDesc store).length = 2 := by
        rw [sortKeysDesc_length]; exact hlen2
      obtain ⟨a, b, hab⟩ := List.length_eq_two.mp hsortlen
      have hb : b = older := by
        rw [hab] at holder
        simpa using holder
      subst hb
      have hperm : (sortKeysDesc store).Perm store := sortKeysDesc_perm store
      have hnodup2 : ((sortKeysDesc store).map AccessKeyMetadata.AccessKeyId).Nodup :=
        ((hperm.map AccessKeyMetadata.AccessKeyId).nodup_iff).mpr hnodup
      have hmem_b : b ∈ store := hperm.mem_iff.mp (by rw [hab]; simp)
      by_cases hA : b.Status = "Active"
      · rw [if_pos hA] at ht
        rw [rotate_eq_of_try ht] at hid
        simp at hid
      · rw [if_neg hA] at ht
        by_cases hI : b.Status = "Inactive"
        · rw [if_pos hI] at ht
          rw [rotate_eq_of_try ht] at hid
          simp at hid
          subst hid
          constructor
          · intro k hk hkid
            have : k = b := List.inj_on_of_nodup_map hnodup hk hmem_b hkid
            rw [this]
            exact hI
          · intro hd hhd
            rw [hab] at hhd
            simp at hhd
            subst hhd
            rw [hab] at hnodup2
            simp at hnodup2
            intro hcontra
            exact hnodup2 hcontra
        · rw [if_neg hI] at ht
          rw [rotate_eq_of_try_error ht] at hid
          simp at hid

/-- Every execution of repeated invocations from a good store keeps the store
good and is deletion-safe at every step. -/
lemma runSteps_invariant (inputs : List RotInput) :
    ∀ store, store.length ≤ 2 →
      (store.map AccessKeyMetadata.AccessKeyId).Nodup →
      validInputs store inputs = true →
      (runRotate store inputs).length ≤ 2 ∧
      ∀ p ∈ runSteps store inputs, p.1.length ≤ 2 ∧ deleteSafe p.1 p.2 := by
  induction inputs with
  | nil =>
    intro store hlen _ _
    exact ⟨hlen, by intro p hp; simp [runSteps] at hp⟩
  | cons i is ih =>
    intro store hlen hnodup hv
    simp only [validInputs, Bool.and_eq_true] at hv
    obtain ⟨hgood1, hgood2⟩ := stepRotate_good store i hlen hnodup hv.1
    obtain ⟨hrun, hsteps⟩ := ih (stepRotate store i).store hgood1 hgood2 hv.2
    refine ⟨by simpa [runRotate] using hrun, ?_⟩
    intro p hp
    simp only [runSteps, List.mem_cons] at hp
    rcases hp with hp | hp
    · rw [hp]
      exact ⟨hlen, stepRotate_deleteSafe store i hnodup⟩
    · exact hsteps p hp

/--
C1. Starting from a store with 0 keys and repeatedly invoking `rotate` with a
simulated store that applies each requested mutation (ids minted fresh at each
step), the number of keys never exceeds 2 — neither in the final store nor in
any intermediate snapshot — and every deletion request targets a key that was
Inactive in its snapshot and is not the newest key, so the newest key is never
deleted while it is the newest Active key.
-/
theorem rotate_cycle_invariant (inputs : List RotInput)
    (hv : validInputs [] inputs = true) :
    (runRotate [] inputs).length ≤ 2 ∧
    ∀ p ∈ runSteps [] inputs, p.1.length ≤ 2 ∧ deleteSafe p.1 p.2 :=
  runSteps_invariant inputs [] (by decide) (by decide) hv

/-- Witness for C1: five concrete invocations exercising create, create,
invalidate, delete, create. -/
theorem rotate_cycle_invariant_witness :
    validInputs []
      [{ freshId := "k0", freshSecret := "s0", now := 0, pushOk := true },
       { freshId := "k1", freshSecret := "s1", now := 1, pushOk := true },
       { freshId := "k2", freshSecret := "s2", now := 2, pushOk := false },
       { freshId := "k3", freshSecret := "s3", now := 3, pushOk := true },
       { freshId := "k4", freshSecret := "s4", now := 4, pushOk := true }] = true ∧
    ((runRotate []
      [{ freshId := "k0", freshSecret := "s0", now := 0, pushOk := true },
       { freshId := "k1", freshSecret := "s1", now := 1, pushOk := true },
       { freshId := "k2", freshSecret := "s2", now := 2, pushOk := false },
       { freshId := "k3", freshSecret := "s3", now := 3, pushOk := true },
       { freshId := "k4", freshSecret := "s4", now := 4, pushOk := true }]).length ≤ 2 ∧
    ∀ p ∈ runSteps []
      [{ freshId := "k0", freshSecret := "s0", now := 0, pushOk := true },
       { freshId := "k1", freshSecret := "s1", now := 1, pushOk := true },
       { freshId := "k2", freshSecret := "s2", now := 2, pushOk := false },
       { freshId := "k3", freshSecret := "s3", now := 3, pushOk := true },
       { freshId := "k4", freshSecret := "s4", now := 4, pushOk := true }],
      p.1.length ≤ 2 ∧ deleteSafe p.1 p.2) :=
  ⟨by rfl, rotate_cycle_invariant
    [{ freshId := "k0", freshSecret := "s0", now := 0, pushOk := true },
     { freshId := "k1", freshSecret := "s1", now := 1, pushOk := true },
     { freshId := "k2", freshSecret := "s2", now := 2, pushOk := false },
     { freshId := "k3", freshSecret := "s3", now := 3, pushOk := true },
     { freshId := "k4", freshSecret := "s4", now := 4, pushOk := true }] (by rfl)⟩

example :
    rotateIAMUserKeys [] "k0" "s0" 0 true =
      { store := [{ AccessKeyId := "k0", Status := "Active", CreateDate := 0 }],
        trace := [.createKey "k0", .sleep 1, .push "k0" "s0"] } := rfl

example :
    rotateIAMUserKeys
      [{ AccessKeyId := "k1", Status := "Active", CreateDate := 1 },
       { AccessKeyId := "k2", Status := "Active", CreateDate := 2 }] "f" "s" 3 true =
      { store := [{ AccessKeyId := "k1", Status := "Inactive", CreateDate := 1 },
                  { AccessKeyId := "k2", Status := "Active", CreateDate := 2 }],
        trace := [.updateKey "k1" "Inactive"] } := rfl

/--
C8. `validateConfiguration` returns an error exactly when the access key is
absent (empty) or the project list is absent (empty); the `CredentialPusher`
constructor propagates any such error, so a `CredentialPusher` is constructed
exactly for configurations that validate, and every constructed instance
holds a validated configuration.
-/
theorem validateConfiguration_spec (config : ServiceConfiguration) :
    ((TravisCIPusher.validateConfiguration config).isSome ↔
      config.accessKey = "" ∨ config.projects = []) ∧
    (∀ p, mkCredentialPusher travisService config = .ok p →
      p.config = config ∧ TravisCIPusher.validateConfiguration p.config = none) ∧
    (TravisCIPusher.validateConfiguration config = none →
      mkCredentialPusher travisService config =
        .ok { service := travisService, config := config }) := by
  refine ⟨?_, ?_, ?_⟩
  · unfold TravisCIPusher.validateConfiguration
    by_cases h1 : config.accessKey = ""
    · simp [h1]
    · by_cases h2 : config.projects.length = 0
      · simp [h1, h2, List.length_eq_zero.mp h2]
      · have : config.projects ≠ [] := by
          intro hc
          rw [hc] at h2
          exact h2 rfl
        simp [h1, h2, this]
  · intro p hp
    unfold mkCredentialPusher at hp
    cases hv : travisService.validateConfiguration config with
    | some e => rw [hv] at hp; cases hp
    | none =>
      rw [hv] at hp
      cases hp
      exact ⟨rfl, hv⟩
  · intro hv
    unfold mkCredentialPusher
    have : travisService.validateConfiguration config = none := hv
    rw [this]

/-- Witness for C8: a valid configuration, and an invalid one (no projects). -/
theorem validateConfiguration_spec_witness :
    ((TravisCIPusher.validateConfiguration goodConfig).isSome ↔
      (goodConfig.accessKey = "" ∨ goodConfig.projects = [])) ∧
    ((TravisCIPusher.validateConfiguration noProjectsConfig).isSome ↔
      (noProjectsConfig.accessKey = "" ∨ noProjectsConfig.projects = [])) ∧
    mkCredentialPusher travisService goodConfig =
      .ok { service := travisService, config := goodConfig } :=
  ⟨(validateConfiguration_spec goodConfig).1,
   (validateConfiguration_spec noProjectsConfig).1,
   (validateConfiguration_spec goodConfig).2.2 (by rfl)⟩

/-- A skipped check: a variable that passes the truthiness test has a present,
nonempty id. -/
lemma id_getD_some {v : TravisEnvVar} (h : ¬ v.id.getD "" = "") :
    v.id = some (v.id.getD "") := by
  cases hv : v.id with
  | none => rw [hv] at h; simp at h
  | some s => simp [hv]

/-- Soundness of the scan loop: a handle that differs from its accumulator
seed was read off some variable whose name matches the corresponding
location. -/
lemma findEnvVarIds_sound (keyLoc secretLoc : String) (envVars : List TravisEnvVar) :
    ∀ acc : String × String,
      ((findEnvVarIds keyLoc secretLoc envVars acc).1 = acc.1 ∨
        ∃ v ∈ envVars,
          v.id = some (findEnvVarIds keyLoc secretLoc envVars acc).1 ∧
          v.name = some keyLoc) ∧
      ((findEnvVarIds keyLoc secretLoc envVars acc).2 = acc.2 ∨
        ∃ v ∈ envVars,
          v.id = some (findEnvVarIds keyLoc secretLoc envVars acc).2 ∧
          v.name = some secretLoc) := by
  induction envVars with
  | nil => intro acc; exact ⟨Or.inl rfl, Or.inl rfl⟩
  | cons v vs ih =>
    intro acc
    by_cases hid : v.id.getD "" = ""
    · have heq : findEnvVarIds keyLoc secretLoc (v :: vs) acc =
          findEnvVarIds keyLoc secretLoc vs acc := by
        simp only [findEnvVarIds]; rw [if_pos hid]
      rw [heq]
      obtain ⟨h1, h2⟩ := ih acc
      constructor
      · rcases h1 with h1 | ⟨w, hw, hwp⟩
        · exact Or.inl h1
        · exact Or.inr ⟨w, List.mem_cons_of_mem v hw, hwp⟩
      · rcases h2 with h2 | ⟨w, hw, hwp⟩
        · exact Or.inl h2
        · exact Or.inr ⟨w, List.mem_cons_of_mem v hw, hwp⟩
    · by_cases hn1 : v.name = some keyLoc
      · have heq : findEnvVarIds keyLoc secretLoc (v :: vs) acc =
            findEnvVarIds keyLoc secretLoc vs (v.id.getD "", acc.2) := by
          simp only [findEnvVarIds]; rw [if_neg hid, if_pos hn1]
        rw [heq]
        obtain ⟨h1, h2⟩ := ih (v.id.getD "", acc.2)
        constructor
        · rcases h1 with h1 | ⟨w, hw, hwp⟩
          · exact Or.inr ⟨v, List.mem_cons_self v vs, by rw [h1]; exact id_getD_some hid, hn1⟩
          · exact Or.inr ⟨w, List.mem_cons_of_mem v hw, hwp⟩
        · rcases h2 with h2 | ⟨w, hw, hwp⟩
          · exact Or.inl h2
          · exact Or.inr ⟨w, List.mem_cons_of_mem v hw, hwp⟩
      · by_cases hn2 : v.name = some secretLoc
        · have heq : findEnvVarIds keyLoc secretLoc (v :: vs) acc =
              findEnvVarIds keyLoc secretLoc vs (acc.1, v.id.getD "") := by
            simp only [findEnvVarIds]; rw [if_neg hid, if_neg hn1, if_pos hn2]
          rw [heq]
          obtain ⟨h1, h2⟩ := ih (acc.1, v.id.getD "")
          constructor
          · rcases h1 with h1 | ⟨w, hw, hwp⟩
            · exact Or.inl h1
            · exact Or.inr ⟨w, List.mem_cons_of_mem v hw, hwp⟩
          · rcases h2 with h2 | ⟨w, hw, hwp⟩
            · exact Or.inr ⟨v, List.mem_cons_self v vs, by rw [h2]; exact id_getD_some hid, hn2⟩
            · exact Or.inr ⟨w, List.mem_cons_of_mem v hw, hwp⟩
        · have heq : findEnvVarIds keyLoc secretLoc (v :: vs) acc =
              findEnvVarIds keyLoc secretLoc vs acc := by
            simp only [findEnvVarIds]; rw [if_neg hid, if_neg hn1, if_neg hn2]
          rw [heq]
          obtain ⟨h1, h2⟩ := ih acc
          constructor
          · rcases h1 with h1 | ⟨w, hw, hwp⟩
            · exact Or.inl h1
            · exact Or.inr ⟨w, List.mem_cons_of_mem v hw, hwp⟩
          · rcases h2 with h2 | ⟨w, hw, hwp⟩
            · exact Or.inl h2
            · exact Or.inr ⟨w, List.mem_cons_of_mem v hw, hwp⟩

/-- A PATCH preserves the number of variables. -/
lemma patchEnvVar_length (vars : List TravisEnvVar) (varId newValue : String) (pub : Bool) :
    (patchEnvVar vars varId newValue pub).length = vars.length := by
  simp [patchEnvVar]

/-- Pointwise effect of a PATCH. -/
lemma patchEnvVar_getElem (vars : List TravisEnvVar) (varId newValue : String) (pub : Bool)
    (n : Nat) (hn : n < vars.length) (hn2 : n < (patchEnvVar vars varId newValue pub).length) :
    (patchEnvVar vars varId newValue pub)[n] =
      if vars[n].id = some varId then { vars[n] with value := some newValue, public := some pub } else vars[n] := by
  simp [patchEnvVar]

/-- Pointwise effect of the two PATCH requests issued on the success path:
the secret-location update is issued last, so it wins when both handles name
the same variable. -/
lemma patch_twice (vars : List TravisEnvVar) (a1 s2 newId newSecret : String)
    (n : Nat) (hn : n < vars.length)
    (hn2 : n < (patchEnvVar (patchEnvVar vars a1 newId true) s2 newSecret false).length) :
    (patchEnvVar (patchEnvVar vars a1 newId true) s2 newSecret false)[n] =
      (if vars[n].id = some s2 then { vars[n] with value := some newSecret, public := some false }
       else if vars[n].id = some a1 then { vars[n] with value := some newId, public := some true }
       else vars[n]) := by
  have hn1 : n < (patchEnvVar vars a1 newId true).length := by
    rw [patchEnvVar_length]; exact hn
  rw [patchEnvVar_getElem _ _ _ _ n hn1 hn2, patchEnvVar_getElem _ _ _ _ n hn hn1]
  by_cases ha : vars[n].id = some a1
  · by_cases hs : vars[n].id = some s2
    · rw [if_pos ha, if_pos hs]
    · rw [if_pos ha]
  · by_cases hs : vars[n].id = some s2
    · rw [if_neg ha, if_pos hs]
    · rw [if_neg ha, if_neg hs]

/--
C9. For a target project: a resolved (nonempty) handle always comes from an
existing variable whose name equals the corresponding configured location;
when either configured name resolves to no handle, `pushToProject` fails with
the location-not-found error naming one of the two configured locations; and
when both resolve, it succeeds, overwriting the secret-location variable with
the new secret marked non-public and the key-id-location variable with the
new key id marked public, leaving every other variable unchanged.
-/
theorem pushToProject_spec (p : Project) (envVars : List TravisEnvVar)
    (newAccessKeyId newSecretAccessKey : String) :
    ((resolvedIds p envVars).1 ≠ "" →
      ∃ v ∈ envVars, v.id = some (resolvedIds p envVars).1 ∧
        v.name = some p.accessKeyIDLocation) ∧
    ((resolvedIds p envVars).2 ≠ "" →
      ∃ v ∈ envVars, v.id = some (resolvedIds p envVars).2 ∧
        v.name = some p.secretAccessKeyLocation) ∧
    ((resolvedIds p envVars).1 = "" ∨ (resolvedIds p envVars).2 = "" →
      ∃ loc, pushToProject p (some envVars) newAccessKeyId newSecretAccessKey =
        .error ("Unable to find Travis CI environment variable with name " ++ loc) ∧
        (loc = p.accessKeyIDLocation ∨ loc = p.secretAccessKeyLocation)) ∧
    ((resolvedIds p envVars).1 ≠ "" → (resolvedIds p envVars).2 ≠ "" →
      ∃ vars2, pushToProject p (some envVars) newAccessKeyId newSecretAccessKey = .ok vars2 ∧
        vars2.length = envVars.length ∧
        ∀ n, (hn : n < envVars.length) → (hn2 : n < vars2.length) →
          vars2[n] =
            (if envVars[n].id = some (resolvedIds p envVars).2 then
              { envVars[n] with value := some newSecretAccessKey, public := some false }
             else if envVars[n].id = some (resolvedIds p envVars).1 then
              { envVars[n] with value := some newAccessKeyId, public := some true }
             else envVars[n])) := by
  refine ⟨?_, ?_, ?_, ?_⟩
  · intro h
    have hs := (findEnvVarIds_sound p.accessKeyIDLocation p.secretAccessKeyLocation
      envVars ("", "")).1
    rcases hs with hs | hs
    · exact absurd hs h
    · exact hs
  · intro h
    have hs := (findEnvVarIds_sound p.accessKeyIDLocation p.secretAccessKeyLocation
      envVars ("", "")).2
    rcases hs with hs | hs
    · exact absurd hs h
    · exact hs
  · intro h
    by_cases h1 : (resolvedIds p envVars).1 = ""
    · refine ⟨p.accessKeyIDLocation, ?_, Or.inl rfl⟩
      simp only [pushToProject]
      rw [if_pos h1]
    · have h2 : (resolvedIds p envVars).2 = "" := by
        rcases h with h | h
        · exact absurd h h1
        · exact h
      refine ⟨p.secretAccessKeyLocation, ?_, Or.inr rfl⟩
      simp only [pushToProject]
      rw [if_neg h1, if_pos h2]
  · intro h1 h2
    refine ⟨patchEnvVar (patchEnvVar envVars (resolvedIds p envVars).1 newAccessKeyId true)
      (resolvedIds p envVars).2 newSecretAccessKey false, ?_, ?_, ?_⟩
    · simp only [pushToProject]
      rw [if_neg h1, if_neg h2]
    · rw [patchEnvVar_length, patchEnvVar_length]
    · intro n hn hn2
      exact patch_twice envVars (resolvedIds p envVars).1 (resolvedIds p envVars).2
        newAccessKeyId newSecretAccessKey n hn hn2

/-- Witness for C9: on the sample project both handles resolve and the
success path applies; the theorem is applied with both hypotheses discharged
by evaluation. -/
theorem pushToProject_spec_witness :
    (resolvedIds sampleProject sampleEnvVars).1 ≠ "" ∧
    (resolvedIds sampleProject sampleEnvVars).2 ≠ "" ∧
    ∃ vars2, pushToProject sampleProject (some sampleEnvVars) "newId" "newSecret" = .ok vars2 ∧
      vars2.length = sampleEnvVars.length ∧
      ∀ n, (hn : n < sampleEnvVars.length) → (hn2 : n < vars2.length) →
        vars2[n] =
          (if sampleEnvVars[n].id = some (resolvedIds sampleProject sampleEnvVars).2 then
            { sampleEnvVars[n] with value := some "newSecret", public := some false }
           else if sampleEnvVars[n].id = some (resolvedIds sampleProject sampleEnvVars).1 then
            { sampleEnvVars[n] with value := some "newId", public := some true }
           else sampleEnvVars[n]) :=
  ⟨by decide, by decide,
    (pushToProject_spec sampleProject sampleEnvVars "newId" "newSecret").2.2.2
      (by decide) (by decide)⟩

/-- Replacing one project's env-var list does not affect lookups of other
projects. -/
lemma lookupProject_setProject_ne (st : TravisState) (slug slug2 : String)
    (vars : List TravisEnvVar) (h : slug2 ≠ slug) :
    lookupProject (setProject st slug vars) slug2 = lookupProject st slug2 := by
  induction st with
  | nil => rfl
  | cons e es ih =>
    simp only [setProject, List.map_cons] at ih ⊢
    by_cases he : e.1 = slug
    · rw [if_pos he]
      simp only [lookupProject]
      have h1 : ¬ ((slug, vars).1 = slug2) := fun hc => h hc.symm
      have h2 : ¬ (e.1 = slug2) := by rw [he]; exact fun hc => h hc.symm
      rw [if_neg h1, if_neg h2]
      exact ih
    · rw [if_neg he]
      simp only [lookupProject]
      by_cases h2 : e.1 = slug2
      · rw [if_pos h2, if_pos h2]
      · rw [if_neg h2, if_neg h2]
        exact ih

/-- The loop only rewrites env vars of the projects it was given. -/
lemma pushNewCredentials_untouched (projects : List Project) :
    ∀ (st : TravisState) (newAccessKeyId newSecretAccessKey slug : String),
      slug ∉ projects.map Project.project →
      lookupProject (pushNewCredentials projects st newAccessKeyId newSecretAccessKey).1 slug =
        lookupProject st slug := by
  induction projects with
  | nil => intro st _ _ _ _; rfl
  | cons p ps ih =>
    intro st newAccessKeyId newSecretAccessKey slug hslug
    simp only [List.map_cons, List.mem_cons] at hslug
    push_neg at hslug
    obtain ⟨hs1, hs2⟩ := hslug
    simp only [pushNewCredentials]
    cases hpp : pushToProject p (lookupProject st p.project) newAccessKeyId newSecretAccessKey with
    | error e => rfl
    | ok vars =>
      rw [ih (setProject st p.project vars) newAccessKeyId newSecretAccessKey slug hs2]
      exact lookupProject_setProject_ne st p.project slug vars hs1

/--
C10. When the project loop of `pushNewCredentials` ends in an error, some
prefix of `k` projects was fully processed: the final service state is
exactly the state after those `k` successful projects (their updates are kept;
nothing is rolled back), the error is the one thrown by project `k` evaluated
against that state (whose own variables are therefore untouched, since
`pushToProject` resolves both locations before issuing either update and
throws before mutating on failure), and projects outside the processed prefix
keep their original env vars.
-/
theorem pushNewCredentials_no_rollback (projects : List Project) (st : TravisState)
    (newAccessKeyId newSecretAccessKey : String) (e : String)
    (herr : (pushNewCredentials projects st newAccessKeyId newSecretAccessKey).2 = some e) :
    ∃ k, ∃ hk : k < projects.length,
      (pushNewCredentials (projects.take k) st newAccessKeyId newSecretAccessKey).2 = none ∧
      (pushNewCredentials projects st newAccessKeyId newSecretAccessKey).1 =
        (pushNewCredentials (projects.take k) st newAccessKeyId newSecretAccessKey).1 ∧
      pushToProject (projects.get ⟨k, hk⟩)
        (lookupProject
          (pushNewCredentials (projects.take k) st newAccessKeyId newSecretAccessKey).1
          (projects.get ⟨k, hk⟩).project) newAccessKeyId newSecretAccessKey = .error e ∧
      ∀ slug, slug ∉ (projects.take k).map Project.project →
        lookupProject (pushNewCredentials projects st newAccessKeyId newSecretAccessKey).1 slug =
          lookupProject st slug := by
  revert herr
  induction projects generalizing st with
  | nil =>
    intro herr
    simp [pushNewCredentials] at herr
  | cons p ps ih =>
    intro herr
    simp only [pushNewCredentials] at herr
    cases hpp : pushToProject p (lookupProject st p.project) newAccessKeyId newSecretAccessKey with
    | error e0 =>
      rw [hpp] at herr
      have he : e0 = e := Option.some.inj herr
      refine ⟨0, Nat.succ_pos ps.length, rfl, ?_, ?_, ?_⟩
      · simp only [List.take_zero, pushNewCredentials]
        rw [hpp]
      · rw [he] at hpp
        exact hpp
      · intro slug _
        simp only [pushNewCredentials]
        rw [hpp]
    | ok vars =>
      rw [hpp] at herr
      obtain ⟨k, hk, ih1, ih2, ih3, ih4⟩ :=
        ih (setProject st p.project vars) herr
      have htake : pushNewCredentials ((p :: ps).take (k + 1)) st newAccessKeyId newSecretAccessKey =
          pushNewCredentials (ps.take k) (setProject st p.project vars)
            newAccessKeyId newSecretAccessKey := by
        simp only [List.take_succ_cons, pushNewCredentials]
        rw [hpp]
      have hall : pushNewCredentials (p :: ps) st newAccessKeyId newSecretAccessKey =
          pushNewCredentials ps (setProject st p.project vars)
            newAccessKeyId newSecretAccessKey := by
        simp only [pushNewCredentials]
        rw [hpp]
      refine ⟨k + 1, Nat.succ_lt_succ hk, ?_, ?_, ?_, ?_⟩
      · rw [htake]
        exact ih1
      · rw [htake, hall]
        exact ih2
      · rw [htake]
        exact ih3
      · intro slug hslug
        simp only [List.take_succ_cons, List.map_cons, List.mem_cons] at hslug
        push_neg at hslug
        obtain ⟨hs1, hs2⟩ := hslug
        rw [hall, ih4 slug hs2]
        exact lookupProject_setProject_ne st p.project slug vars hs1

/-- Witness for C10: pushing to the sample project then to a missing project;
the loop errors on the second project while the first keeps its new values. -/
theorem pushNewCredentials_no_rollback_witness :
    ∃ k, ∃ hk : k < ([sampleProject, missingProject] : List Project).length,
      (pushNewCredentials (([sampleProject, missingProject] : List Project).take k)
        sampleState "newId" "newSecret").2 = none ∧
      (pushNewCredentials [sampleProject, missingProject] sampleState "newId" "newSecret").1 =
        (pushNewCredentials (([sampleProject, missingProject] : List Project).take k)
          sampleState "newId" "newSecret").1 ∧
      pushToProject (([sampleProject, missingProject] : List Project).get ⟨k, hk⟩)
        (lookupProject
          (pushNewCredentials (([sampleProject, missingProject] : List Project).take k)
            sampleState "newId" "newSecret").1
          (([sampleProject, missingProject] : List Project).get ⟨k, hk⟩).project)
        "newId" "newSecret" =
        .error "Did not get list of Travis project credentials as expected." ∧
      ∀ slug, slug ∉ (([sampleProject, missingProject] : List Project).take k).map Project.project →
        lookupProject
          (pushNewCredentials [sampleProject, missingProject] sampleState "newId" "newSecret").1
          slug = lookupProject sampleState slug :=
  pushNewCredentials_no_rollback [sampleProject, missingProject] sampleState
    "newId" "newSecret" "Did not get list of Travis project credentials as expected." (by rfl)

end KeyRotator
